import Mathlib

/-!
Verification development for the wrapper program of charmbracelet/crush
(`src/wrapper/main.rs`): the payload launcher (memfd-based anonymous
execution with a temp-file fallback) and the panel multiplexer.

The Rust source is shallowly embedded: byte sequences are `List Nat`,
fallible OS interactions (file creation, writes, spawning, terminal mode
toggling) are driven by an explicit oracle (`World`, `TermWorld`) that
fixes the outcome of each call site, and the observable side effects
(the temp file on disk, payload spawns, raw-mode toggles) are threaded
through an explicit state (`St`).
-/

/-- Is `b` a UTF-8 continuation byte (`0x80..=0xBF`)? -/
def isCont (b : Nat) : Bool := 0x80 ≤ b && b ≤ 0xBF

/-- Strict UTF-8 decoding of a byte list into code points, mirroring
Rust `String::from_utf8`: rejects overlong encodings, surrogates and
values above `0x10FFFF`; returns `none` on any invalid input.  The
`fuel` argument only makes the recursion structural; at least one byte
is consumed per step, so `fuel = length` never runs out. -/
def utf8DecodeGo : Nat → List Nat → Option (List Char)
  | _, [] => some []
  | 0, _ :: _ => none
  | fuel + 1, b0 :: t0 =>
    if b0 < 0x80 then
      (utf8DecodeGo fuel t0).map (fun cs => Char.ofNat b0 :: cs)
    else if 0xC2 ≤ b0 && b0 ≤ 0xDF then
      match t0 with
      | b1 :: t1 =>
        if isCont b1 then
          (utf8DecodeGo fuel t1).map (fun cs => Char.ofNat ((b0 - 0xC0) * 64 + (b1 - 0x80)) :: cs)
        else none
      | [] => none
    else if 0xE0 ≤ b0 && b0 ≤ 0xEF then
      match t0 with
      | b1 :: b2 :: t2 =>
        if (if b0 = 0xE0 then 0xA0 ≤ b1 && b1 ≤ 0xBF
            else if b0 = 0xED then 0x80 ≤ b1 && b1 ≤ 0x9F
            else isCont b1) && isCont b2 then
          (utf8DecodeGo fuel t2).map (fun cs =>
            Char.ofNat ((b0 - 0xE0) * 4096 + (b1 - 0x80) * 64 + (b2 - 0x80)) :: cs)
        else none
      | _ => none
    else if 0xF0 ≤ b0 && b0 ≤ 0xF4 then
      match t0 with
      | b1 :: b2 :: b3 :: t3 =>
        if (if b0 = 0xF0 then 0x90 ≤ b1 && b1 ≤ 0xBF
            else if b0 = 0xF4 then 0x80 ≤ b1 && b1 ≤ 0x8F
            else isCont b1) && isCont b2 && isCont b3 then
          (utf8DecodeGo fuel t3).map (fun cs =>
            Char.ofNat ((b0 - 0xF0) * 262144 + (b1 - 0x80) * 4096 +
              (b2 - 0x80) * 64 + (b3 - 0x80)) :: cs)
        else none
      | _ => none
    else none

def utf8Decode (l : List Nat) : Option (List Char) := utf8DecodeGo l.length l

/-- Lossy UTF-8 decoding, mirroring Rust `String::from_utf8_lossy`:
each maximal invalid subsequence is replaced by U+FFFD.  On a valid
leading byte whose continuation bytes fail, the bytes consumed so far
(up to the failing byte) are replaced by a single U+FFFD and decoding
resumes at the failing byte. -/
def utf8LossyGo : Nat → List Nat → List Char
  | _, [] => []
  | 0, _ :: _ => []
  | fuel + 1, b0 :: t0 =>
    if b0 < 0x80 then
      Char.ofNat b0 :: utf8LossyGo fuel t0
    else if 0xC2 ≤ b0 && b0 ≤ 0xDF then
      match t0 with
      | b1 :: t1 =>
        if isCont b1 then
          Char.ofNat ((b0 - 0xC0) * 64 + (b1 - 0x80)) :: utf8LossyGo fuel t1
        else Char.ofNat 0xFFFD :: utf8LossyGo fuel (b1 :: t1)
      | [] => [Char.ofNat 0xFFFD]
    else if 0xE0 ≤ b0 && b0 ≤ 0xEF then
      match t0 with
      | b1 :: t1 =>
        if (if b0 = 0xE0 then 0xA0 ≤ b1 && b1 ≤ 0xBF
            else if b0 = 0xED then 0x80 ≤ b1 && b1 ≤ 0x9F
            else isCont b1) then
          match t1 with
          | b2 :: t2 =>
            if isCont b2 then
              Char.ofNat ((b0 - 0xE0) * 4096 + (b1 - 0x80) * 64 + (b2 - 0x80))
                :: utf8LossyGo fuel t2
            else Char.ofNat 0xFFFD :: utf8LossyGo fuel (b2 :: t2)
          | [] => [Char.ofNat 0xFFFD]
        else Char.ofNat 0xFFFD :: utf8LossyGo fuel (b1 :: t1)
      | [] => [Char.ofNat 0xFFFD]
    else if 0xF0 ≤ b0 && b0 ≤ 0xF4 then
      match t0 with
      | b1 :: t1 =>
        if (if b0 = 0xF0 then 0x90 ≤ b1 && b1 ≤ 0xBF
            else if b0 = 0xF4 then 0x80 ≤ b1 && b1 ≤ 0x8F
            else isCont b1) then
          match t1 with
          | b2 :: t2 =>
            if isCont b2 then
              match t2 with
              | b3 :: t3 =>
                if isCont b3 then
                  Char.ofNat ((b0 - 0xF0) * 262144 + (b1 - 0x80) * 4096 +
                    (b2 - 0x80) * 64 + (b3 - 0x80)) :: utf8LossyGo fuel t3
                else Char.ofNat 0xFFFD :: utf8LossyGo fuel (b3 :: t3)
              | [] => [Char.ofNat 0xFFFD]
            else Char.ofNat 0xFFFD :: utf8LossyGo fuel (b2 :: t2)
          | [] => [Char.ofNat 0xFFFD]
        else Char.ofNat 0xFFFD :: utf8LossyGo fuel (b1 :: t1)
      | [] => [Char.ofNat 0xFFFD]
    else Char.ofNat 0xFFFD :: utf8LossyGo fuel t0

def utf8Lossy (l : List Nat) : List Char := utf8LossyGo l.length l

/-- The output of a completed child process, as produced by Rust
`Command::output()` / `Command::status()`: exit code (0 = success,
as in `ExitStatus::success`), captured stdout and stderr bytes. -/
structure ProcOutput where
  exitCode : Nat
  stdout : List Nat
  stderr : List Nat
  deriving DecidableEq, Repr

/-- Observable side effects of a launch: payload spawn attempts
(`exec none` = the OS refused to spawn; `exec (some out)` = the payload
ran to completion with output `out`) and terminal raw-mode toggles. -/
inductive Ev where
  | exec (out : Option ProcOutput)
  | disableRaw
  | enableRaw
  deriving DecidableEq, Repr

/-- Oracle fixing the outcome of every fallible OS call made by one
launch: the memfd path (`memfd_create`, the `libc::write` into it, the
spawn from `/proc/self/fd`) and the temp-file path (`File::create`,
`write_all`, `sync_all`, `set_permissions`, the spawn, `remove_file`). -/
structure World where
  memfdOk : Bool
  memfdWriteOk : Bool
  memfdSpawn : Option ProcOutput
  tmpCreateOk : Bool
  tmpWriteOk : Bool
  tmpSyncOk : Bool
  tmpPermOk : Bool
  tmpSpawn : Option ProcOutput
  tmpRemoveOk : Bool
  deriving DecidableEq, Repr

/-- Threaded launch state: whether the temp executable
`$TMPDIR/embedded_go_binary_<pid>` currently exists on disk, and the
chronological list of observable events. -/
structure St where
  tmpFile : Bool
  events : List Ev
  deriving DecidableEq, Repr

/-- The distinct error values a launch can produce (each corresponds to
one `Err`/`?` site in the Rust source). -/
inductive LaunchErr where
  | memfdCreateFailed
  | memfdWriteFailed
  | spawnFailed
  | tmpCreateFailed
  | tmpWriteFailed
  | tmpSyncFailed
  | tmpPermFailed
  | childFailed (stderrLossy : String)
  | decodeFailed
  | childExitedWithError
  | disableRawFailed
  | clearFailed
  | enableRawFailed
  | fullscreenWrapped (e : LaunchErr)
  deriving DecidableEq, Repr

/-- The diagnostic string carried by a launch error, as built by the
Rust `format!` calls. -/
def LaunchErr.message : LaunchErr → String
  | .childFailed s => "Go binary failed: " ++ s
  | .childExitedWithError => "Go binary exited with error"
  | .fullscreenWrapped e => "Failed to execute Go binary: " ++ e.message
  | _ => "io error"

deriving instance DecidableEq for Except

/-- `create_temp_executable`: `File::create` the temp path, `write_all`
the payload, `sync_all`, then set mode `0o755`.  A failing `?` site
returns the error at once; once `File::create` has succeeded the file
exists on disk and NO cleanup is performed on the later error paths. -/
def create_temp_executable (w : World) (s : St) : Except LaunchErr Unit × St :=
  if !w.tmpCreateOk then (.error .tmpCreateFailed, s)
  else
    let s1 : St := { s with tmpFile := true }
    if !w.tmpWriteOk then (.error .tmpWriteFailed, s1)
    else if !w.tmpSyncOk then (.error .tmpSyncFailed, s1)
    else if !w.tmpPermOk then (.error .tmpPermFailed, s1)
    else (.ok (), s1)

/-- `run_from_temp_file`: create the temp executable (propagating its
error), spawn it with `Command::output()`, then `let _ = remove_file`
(failure swallowed), then inspect the spawn result: spawn error, or
non-zero exit (error carrying the lossily decoded stderr), or decode
stdout strictly. -/
def run_from_temp_file (w : World) (s : St) : Except LaunchErr String × St :=
  match create_temp_executable w s with
  | (.error e, s1) => (.error e, s1)
  | (.ok _, s1) =>
    let s2 : St := { s1 with events := s1.events ++ [Ev.exec w.tmpSpawn] }
    let s3 : St := if w.tmpRemoveOk then { s2 with tmpFile := false } else s2
    match w.tmpSpawn with
    | none => (.error .spawnFailed, s3)
    | some out =>
      if out.exitCode = 0 then
        match utf8Decode out.stdout with
        | some cs => (.ok (String.mk cs), s3)
        | none => (.error .decodeFailed, s3)
      else (.error (.childFailed (String.mk (utf8Lossy out.stderr))), s3)

/-- `run_from_memory_linux`: `memfd_create`, `libc::write` of the whole
payload (short or failed write is an error), spawn `/proc/self/fd/<fd>`
with `Command::output()?`, then the same exit-status/stdout handling as
the temp-file path.  No temp file is ever created on this path. -/
def run_from_memory_linux (w : World) (s : St) : Except LaunchErr String × St :=
  if !w.memfdOk then (.error .memfdCreateFailed, s)
  else if !w.memfdWriteOk then (.error .memfdWriteFailed, s)
  else
    let s1 : St := { s with events := s.events ++ [Ev.exec w.memfdSpawn] }
    match w.memfdSpawn with
    | none => (.error .spawnFailed, s1)
    | some out =>
      if out.exitCode = 0 then
        match utf8Decode out.stdout with
        | some cs => (.ok (String.mk cs), s1)
        | none => (.error .decodeFailed, s1)
      else (.error (.childFailed (String.mk (utf8Lossy out.stderr))), s1)

/-- `run_from_memory_or_temp` on the `target_os = "linux"`
configuration: try the memfd path; on success return its result; on ANY
error log to stderr and fall back to `run_from_temp_file`, whose result
is returned as-is. -/
def run_from_memory_or_temp (w : World) (s : St) : Except LaunchErr String × St :=
  match run_from_memory_linux w s with
  | (.ok r, s1) => (.ok r, s1)
  | (.error _, s1) => run_from_temp_file w s1

/-- Number of events in which the payload actually ran (a spawn that
the OS accepted). -/
def execCount (evs : List Ev) : Nat :=
  (evs.filter (fun e => match e with | .exec (some _) => true | _ => false)).length

/-- Oracle for the terminal-control calls around a Handoff launch. -/
structure TermWorld where
  disableOk : Bool
  clearOk : Bool
  enableOk : Bool
  deriving DecidableEq, Repr

/-- `Multiplexer::run_binary_with_terminal_control`: create the temp
executable, spawn it with inherited stdio via `Command::status()?`
(NOTE: a spawn error propagates BEFORE the `remove_file` line), then
`let _ = remove_file`, then fail if the exit status is non-zero. -/
def run_binary_with_terminal_control (w : World) (s : St) : Except LaunchErr Unit × St :=
  match create_temp_executable w s with
  | (.error e, s1) => (.error e, s1)
  | (.ok _, s1) =>
    let s2 : St := { s1 with events := s1.events ++ [Ev.exec w.tmpSpawn] }
    match w.tmpSpawn with
    | none => (.error .spawnFailed, s2)
    | some out =>
      let s3 : St := if w.tmpRemoveOk then { s2 with tmpFile := false } else s2
      if !(out.exitCode = 0) then (.error .childExitedWithError, s3)
      else (.ok (), s3)

/-- `Multiplexer::execute_go_binary_fullscreen`: `disable_raw_mode()?`,
clear the screen and move the cursor (`?`), run the payload with full
terminal control, `enable_raw_mode()?`, and only then inspect the child
result, wrapping its error message. -/
def execute_go_binary_fullscreen (tw : TermWorld) (w : World) (s : St) :
    Except LaunchErr Unit × St :=
  let s1 : St := { s with events := s.events ++ [Ev.disableRaw] }
  if !tw.disableOk then (.error .disableRawFailed, s1)
  else if !tw.clearOk then (.error .clearFailed, s1)
  else
    match run_binary_with_terminal_control w s1 with
    | (result, s2) =>
      let s3 : St := { s2 with events := s2.events ++ [Ev.enableRaw] }
      if !tw.enableOk then (.error .enableRawFailed, s3)
      else
        match result with
        | .ok _ => (.ok (), s3)
        | .error e => (.error (.fullscreenWrapped e), s3)

/-- `PanelType`: passive note panel vs. the payload-hosting panel. -/
inductive PanelType where
  | Manual
  | BinaryProcess
  deriving DecidableEq, Repr

/-- `Panel`: one pane of the multiplexer.  The `process` field of the
Rust struct (an `Option<Arc<Mutex<Child>>>`) is set to `None` by both
constructors and never written afterwards; it is modelled as
`Option Unit`. -/
structure Panel where
  id : Nat
  title : String
  content : List String
  process : Option Unit
  is_active : Bool
  cursor_line : Nat
  scroll_offset : Nat
  panel_type : PanelType
  deriving DecidableEq, Repr

/-- `Panel::new`: a fresh Manual panel, inactive, empty content. -/
def Panel.new (id : Nat) (title : String) : Panel :=
  { id := id, title := title, content := [], process := none, is_active := false,
    cursor_line := 0, scroll_offset := 0, panel_type := .Manual }

/-- `Panel::new_binary`: a fresh BinaryProcess panel, inactive, empty. -/
def Panel.new_binary (id : Nat) (title : String) : Panel :=
  { id := id, title := title, content := [], process := none, is_active := false,
    cursor_line := 0, scroll_offset := 0, panel_type := .BinaryProcess }

/-- `Panel::add_line`: push the line, then if the content exceeds 1000
lines remove the first (oldest) one. -/
def Panel.add_line (p : Panel) (line : String) : Panel :=
  if (p.content ++ [line]).length > 1000 then { p with content := (p.content ++ [line]).drop 1 }
  else { p with content := p.content ++ [line] }

/-- `Multiplexer`.  The Rust `panels` field is a
`HashMap<usize, Panel>`; it is modelled as the association list of its
entries, kept here in insertion order.  A `HashMap` promises nothing
about its iteration order, so every operation that iterates over
`panels.keys()` takes the enumeration as an explicit parameter
(a permutation of the keys). -/
structure Multiplexer where
  panels : List (Nat × Panel)
  active_panel : Nat
  next_panel_id : Nat
  terminal_size : Nat × Nat
  should_quit : Bool
  deriving DecidableEq, Repr

/-- The keys of the panel map, in insertion order. -/
def keysList (m : Multiplexer) : List Nat := m.panels.map (fun e => e.1)

/-- `HashMap::get` on the modelled entry list. -/
def getPanel (m : Multiplexer) (k : Nat) : Option Panel :=
  (m.panels.find? (fun e => e.1 = k)).map (fun e => e.2)

/-- `HashMap::get_mut` followed by a mutation: apply `f` to the entry
with key `k` (if present). -/
def modifyPanel (m : Multiplexer) (k : Nat) (f : Panel → Panel) : Multiplexer :=
  { m with panels := m.panels.map (fun e => if e.1 = k then (e.1, f e.2) else e) }

/-- `HashMap::insert`: replace the value when the key is present,
otherwise add a new entry. -/
def assocInsert (l : List (Nat × Panel)) (k : Nat) (v : Panel) : List (Nat × Panel) :=
  if l.any (fun e => e.1 = k) then l.map (fun e => if e.1 = k then (k, v) else e)
  else l ++ [(k, v)]

/-- `Multiplexer::create_binary_panel`: build the welcome
BinaryProcess panel, mark it active, seed it with two lines, insert it
under `next_panel_id`, focus it, and bump the id counter.  (The Rust
function returns `Ok(())` unconditionally.) -/
def create_binary_panel (m : Multiplexer) : Multiplexer :=
  { m with
    panels := assocInsert m.panels m.next_panel_id
      (({ Panel.new_binary m.next_panel_id "Welcome to OpenCode" with
          is_active := true }.add_line
        "Press Enter to start OpenCode, Ctrl+C to switch panels").add_line
        "When binary is running, it will take full terminal control"),
    active_panel := m.next_panel_id,
    next_panel_id := m.next_panel_id + 1 }

/-- `Multiplexer::create_manual_panel`: build a Manual panel (inactive),
seed it with two help lines, insert it under `next_panel_id`, bump the
id counter.  The active panel is NOT changed. -/
def create_manual_panel (m : Multiplexer) (title : String) : Multiplexer :=
  { m with
    panels := assocInsert m.panels m.next_panel_id
      (((Panel.new m.next_panel_id title).add_line
        "Manual panel created. Type commands or notes here.").add_line
        "Use Ctrl+C to switch panels, Ctrl+N for new panel, Ctrl+Q to quit."),
    next_panel_id := m.next_panel_id + 1 }

/-- `Multiplexer::new`: empty map, active id 0, id counter 0, the
terminal size snapshot, then `create_binary_panel`. -/
def Multiplexer.new (size : Nat × Nat) : Multiplexer :=
  create_binary_panel
    { panels := [], active_panel := 0, next_panel_id := 0,
      terminal_size := size, should_quit := false }

/-- `Multiplexer::switch_to_next_panel`, parametrised by the
enumeration `σ` that `HashMap::keys()` happens to produce: deactivate
the current active panel, collect the key list, find the position of
the active id in it, step to the next position modulo the length, and
activate the panel now under focus.  (The `Vec` indexing in the source
cannot go out of bounds because the index is reduced modulo the length;
`List.getD` mirrors it totally.) -/
def switch_deactivated (m : Multiplexer) : Multiplexer :=
  modifyPanel m m.active_panel (fun p => { p with is_active := false })

/-- The `panel_ids` lookup and wrap-around step of
`switch_to_next_panel`: find the position of the active id in the key
enumeration and refocus to the id at the next position modulo the
length (no-op when the active id is not among the keys, as in the
source where `position` returns `None`). -/
def switch_refocus (σ : List Nat → List Nat) (m1 : Multiplexer) : Multiplexer :=
  match (σ (keysList m1)).findIdx? (fun id => id = m1.active_panel) with
  | some idx =>
      { m1 with active_panel :=
          (σ (keysList m1)).getD ((idx + 1) % (σ (keysList m1)).length) m1.active_panel }
  | none => m1

def switch_to_next_panel (σ : List Nat → List Nat) (m : Multiplexer) : Multiplexer :=
  modifyPanel (switch_refocus σ (switch_deactivated m))
    (switch_refocus σ (switch_deactivated m)).active_panel
    (fun p => { p with is_active := true })

/-- A key event as matched by `handle_input`: the key code plus whether
the modifier set is exactly `CONTROL`. -/
inductive KeyCode where
  | char (c : Char)
  | enter
  | other
  deriving DecidableEq, Repr

structure KeyEvent where
  code : KeyCode
  ctrl : Bool
  deriving DecidableEq, Repr

/-- `Multiplexer::handle_input`, parametrised by the key-enumeration
`σ` (used by the switch action) and by the outcome `launch` of
`execute_go_binary_fullscreen` (used by the Enter action on a
BinaryProcess panel; the launch itself mutates no multiplexer state).
Match arms in source order: Ctrl+Q quit, Ctrl+C switch, Ctrl+N new
panel, Enter submit, any other char, otherwise ignore. -/
def handle_input (σ : List Nat → List Nat) (launch : Except LaunchErr Unit)
    (m : Multiplexer) (k : KeyEvent) : Multiplexer :=
  if k.code = .char 'q' ∧ k.ctrl then { m with should_quit := true }
  else if k.code = .char 'c' ∧ k.ctrl then switch_to_next_panel σ m
  else if k.code = .char 'n' ∧ k.ctrl then
    create_manual_panel m ("Panel " ++ toString m.next_panel_id)
  else if k.code = .enter then
    match getPanel m m.active_panel with
    | some p =>
      match p.panel_type with
      | .BinaryProcess =>
        match launch with
        | .error e =>
            modifyPanel m m.active_panel
              (fun q => q.add_line ("Error: " ++ e.message))
        | .ok _ =>
            modifyPanel m m.active_panel
              (fun q => q.add_line "Go binary executed successfully!")
      | .Manual =>
          modifyPanel m m.active_panel (fun q => q.add_line ">>> Enter pressed")
    | none => m
  else
    match k.code with
    | .char c =>
      match getPanel m m.active_panel with
      | some p =>
        if p.panel_type = .Manual then
          modifyPanel m m.active_panel (fun q => q.add_line ("Input: " ++ String.mk [c]))
        else m
      | none => m
    | _ => m

/-- A key enumeration is legal for `HashMap::keys()` iff it returns
exactly the keys of the map, in some order. -/
def GoodEnum (σ : List Nat → List Nat) : Prop :=
  ∀ l : List Nat, (σ l).Perm l

/-- The multiplexer states reachable from construction through the
event loop: key events dispatched through `handle_input` (with any
legal key enumeration and any launch outcome) and resize events. -/
inductive Reachable : Multiplexer → Prop where
  | init (size : Nat × Nat) : Reachable (Multiplexer.new size)
  | key {m : Multiplexer} (σ : List Nat → List Nat) (launch : Except LaunchErr Unit)
      (k : KeyEvent) (hm : Reachable m) (hσ : GoodEnum σ) :
      Reachable (handle_input σ launch m k)
  | resize {m : Multiplexer} (w h : Nat) (hm : Reachable m) :
      Reachable { m with terminal_size := (w, h) }

/-- The multiplexer state invariant: the panel set is non-empty (the
constructor creates one panel and nothing removes panels), panel ids
are unique, ids are below the `next_panel_id` counter, the focused id
is a key of the map, and a panel's `is_active` flag is set exactly on
the focused panel. -/
def MuxInv (m : Multiplexer) : Prop :=
  m.panels ≠ [] ∧
  (keysList m).Nodup ∧
  (∀ k ∈ keysList m, k < m.next_panel_id) ∧
  m.active_panel ∈ keysList m ∧
  (∀ e ∈ m.panels, (e.2.is_active = true ↔ e.1 = m.active_panel))

/-- A key enumeration that is a permutation of the keys but is NOT
insertion order on the three-panel key set: a `HashMap` is free to
iterate `[0, 1, 2]` as `[0, 2, 1]`. -/
def sigma0 : List Nat → List Nat :=
  fun l => if l = [0, 1, 2] then [0, 2, 1] else l

/-- The multiplexer state after construction and two Ctrl+N presses:
panels with ids 0, 1, 2 inserted in that order, focus on panel 0. -/
def mux3 : Multiplexer :=
  create_manual_panel (create_manual_panel (Multiplexer.new (80, 24)) "Panel 1") "Panel 2"

/-- A world in which the temp-file `write_all` fails (disk full /
interrupted write) but everything before it succeeds. -/
def wWriteFail : World :=
  { memfdOk := false, memfdWriteOk := false, memfdSpawn := none,
    tmpCreateOk := true, tmpWriteOk := false, tmpSyncOk := true,
    tmpPermOk := true, tmpSpawn := none, tmpRemoveOk := true }

/-- A world in which every OS call succeeds and the payload, on both
the memfd path and the temp-file path, exits with code 2 writing `"x"`
to stderr. -/
def wExit2 : World :=
  { memfdOk := true, memfdWriteOk := true, memfdSpawn := some ⟨2, [], [120]⟩,
    tmpCreateOk := true, tmpWriteOk := true, tmpSyncOk := true,
    tmpPermOk := true, tmpSpawn := some ⟨2, [], [120]⟩, tmpRemoveOk := true }

/-- A world in which every OS call succeeds and the payload exits 0
writing `"OK"` to stdout. -/
def wOK : World :=
  { memfdOk := true, memfdWriteOk := true, memfdSpawn := some ⟨0, [0x4F, 0x4B], []⟩,
    tmpCreateOk := true, tmpWriteOk := true, tmpSyncOk := true,
    tmpPermOk := true, tmpSpawn := some ⟨0, [0x4F, 0x4B], []⟩, tmpRemoveOk := true }

/-- A world in which `memfd_create` fails and the temp-file path fully
succeeds with exit 0 and stdout `"OK"`. -/
def wNoMemfd : World :=
  { memfdOk := false, memfdWriteOk := true, memfdSpawn := none,
    tmpCreateOk := true, tmpWriteOk := true, tmpSyncOk := true,
    tmpPermOk := true, tmpSpawn := some ⟨0, [0x4F, 0x4B], []⟩, tmpRemoveOk := true }

/-- The initial launch state: no temp file on disk, no events yet. -/
def s0 : St := { tmpFile := false, events := [] }

/-- A terminal world where raw-mode toggling and screen clearing work. -/
def twOK : TermWorld := { disableOk := true, clearOk := true, enableOk := true }

lemma addLine_is_active (p : Panel) (l : String) : (p.add_line l).is_active = p.is_active := by
  unfold Panel.add_line
  split <;> rfl

lemma addLine_content_lt (p : Panel) (l : String) (h : p.content.length < 1000) :
    (p.add_line l).content = p.content ++ [l] := by
  unfold Panel.add_line
  rw [if_neg (by simp; omega)]

lemma addLine_content_cap (p : Panel) (l : String) (h : p.content.length = 1000) :
    (p.add_line l).content = (p.content ++ [l]).drop 1 := by
  unfold Panel.add_line
  rw [if_pos (by simp; omega)]

lemma addLine_length_le (p : Panel) (l : String) (h : p.content.length ≤ 1000) :
    (p.add_line l).content.length ≤ 1000 := by
  rcases eq_or_lt_of_le h with hc | hc
  · rw [addLine_content_cap p l hc]
    simp
    omega
  · rw [addLine_content_lt p l hc]
    simp
    omega

lemma addLine_at_capacity (p : Panel) (l : String) (h : p.content.length = 1000) :
    (p.add_line l).content = p.content.drop 1 ++ [l] := by
  rw [addLine_content_cap p l h]
  rw [List.drop_append_of_le_length (by omega)]

lemma foldl_addLine_content (L : List String) (p : Panel) (h : p.content.length ≤ 1000) :
    (L.foldl Panel.add_line p).content
      = (p.content ++ L).drop (p.content.length + L.length - 1000) := by
  induction L generalizing p with
  | nil =>
    simp [Nat.sub_eq_zero_of_le h]
  | cons a L ih =>
    rw [List.foldl_cons]
    by_cases hc : p.content.length = 1000
    · have h1 : (p.add_line a).content = (p.content ++ [a]).drop 1 :=
        addLine_content_cap p a hc
      have hlen1 : (p.add_line a).content.length = 1000 := by
        rw [h1]; simp; omega
      rw [ih _ (le_of_eq hlen1), h1]
      have e3 : (p.content ++ [a]).drop 1 ++ L = (p.content ++ [a] ++ L).drop 1 :=
        (List.drop_append_of_le_length (by simp)).symm
      rw [e3, List.drop_drop]
      have hn : 1 + ((List.drop 1 (p.content ++ [a])).length + L.length - 1000)
          = p.content.length + (a :: L).length - 1000 := by
        simp only [List.length_drop, List.length_append, List.length_cons, List.length_nil]
        omega
      rw [hn, List.append_assoc, List.singleton_append]
    · have hlt : p.content.length < 1000 := lt_of_le_of_ne h hc
      have h1 : (p.add_line a).content = p.content ++ [a] :=
        addLine_content_lt p a hlt
      rw [ih _ (by rw [h1]; simp; omega), h1]
      have hn : (p.content ++ [a]).length + L.length - 1000
          = p.content.length + (a :: L).length - 1000 := by
        simp only [List.length_append, List.length_cons, List.length_nil]
        omega
      rw [hn, List.append_assoc, List.singleton_append]

lemma getLastD_mem {α : Type} : ∀ (l : List α) (d : α), l ≠ [] → l.getLastD d ∈ l := by
  intro l
  induction l with
  | nil => intro d h; exact absurd rfl h
  | cons x xs ih =>
    intro d _
    rw [List.getLastD_cons]
    cases hxs : xs with
    | nil => simp
    | cons y ys =>
      right
      rw [← hxs]
      exact ih x (by simp [hxs])

/-- C6: appending 1001 lines to an initially empty panel leaves exactly
1000 lines of content; the first-appended line is gone (when it is not
repeated among the later 1000) and the 1001st appended line is present;
`add_line` keeps the length at most 1000 and an append at capacity
drops exactly the oldest line before appending (FIFO). -/
theorem C6_theorem (t l0 : String) (rest : List String) (p : Panel) (line : String)
    (hlen : rest.length = 1000) (hl0 : l0 ∉ rest) :
    ((l0 :: rest).foldl Panel.add_line (Panel.new 0 t)).content = rest ∧
    ((l0 :: rest).foldl Panel.add_line (Panel.new 0 t)).content.length = 1000 ∧
    l0 ∉ ((l0 :: rest).foldl Panel.add_line (Panel.new 0 t)).content ∧
    rest.getLastD l0 ∈ ((l0 :: rest).foldl Panel.add_line (Panel.new 0 t)).content ∧
    (p.content.length ≤ 1000 → (p.add_line line).content.length ≤ 1000) ∧
    (p.content.length = 1000 → (p.add_line line).content = p.content.drop 1 ++ [line]) := by
  have hmain : ((l0 :: rest).foldl Panel.add_line (Panel.new 0 t)).content = rest := by
    rw [foldl_addLine_content _ _ (by simp [Panel.new])]
    have : (Panel.new 0 t).content = [] := rfl
    rw [this]
    simp [hlen]
  refine ⟨hmain, ?_, ?_, ?_, ?_, ?_⟩
  · rw [hmain, hlen]
  · rw [hmain]; exact hl0
  · rw [hmain]
    exact getLastD_mem rest l0 (by intro hnil; simp [hnil] at hlen)
  · exact addLine_length_le p line
  · exact addLine_at_capacity p line

/-- Witness for C6 at a concrete input: 1001 lines, the first distinct
from the rest. -/
theorem C6_witness :
    (List.replicate 1000 "b").length = 1000 ∧
    "a" ∉ List.replicate 1000 "b" ∧
    (("a" :: List.replicate 1000 "b").foldl Panel.add_line (Panel.new 0 "T")).content
      = List.replicate 1000 "b" := by
  refine ⟨by rw [List.length_replicate], ?_, ?_⟩
  · rw [List.mem_replicate]
    simp
  · have h := C6_theorem "T" "a" (List.replicate 1000 "b") (Panel.new 0 "p") "x"
      (by rw [List.length_replicate]) (by rw [List.mem_replicate]; simp)
    exact h.1

/-- C1 counterexample: when `write_all` fails inside
`create_temp_executable`, `run_from_temp_file` returns the error but
the file created by `File::create` REMAINS on disk — no cleanup runs on
that path, contradicting the claim that no file remains after any
return. -/
theorem C1_counterexample :
    (run_from_temp_file wWriteFail s0).1 = Except.error LaunchErr.tmpWriteFailed ∧
    ((run_from_temp_file wWriteFail s0).2).tmpFile = true := by
  constructor <;> rfl

/-- C1 (amended): if `create_temp_executable` succeeds (create, write,
sync and permission-set all succeed) and the OS `remove_file` call
succeeds, then after `run_from_temp_file` returns — whatever the spawn
result, exit status and stdout decoding — the temp file is gone.  (The
counterexample shows the claim fails when creation fails partway: the
partially-created file is leaked.) -/
theorem C1_theorem (w : World) (s : St)
    (hc : w.tmpCreateOk = true) (hw : w.tmpWriteOk = true) (hs : w.tmpSyncOk = true)
    (hp : w.tmpPermOk = true) (hr : w.tmpRemoveOk = true) :
    ((run_from_temp_file w s).2).tmpFile = false := by
  rcases hsp : w.tmpSpawn with _ | out
  · simp [run_from_temp_file, create_temp_executable, hc, hw, hs, hp, hr, hsp]
  · by_cases he : out.exitCode = 0
    · rcases hd : utf8Decode out.stdout with _ | cs
      · simp [run_from_temp_file, create_temp_executable, hc, hw, hs, hp, hr, hsp, he, hd]
      · simp [run_from_temp_file, create_temp_executable, hc, hw, hs, hp, hr, hsp, he, hd]
    · simp [run_from_temp_file, create_temp_executable, hc, hw, hs, hp, hr, hsp, he]

/-- Witness for C1 (amended) at a concrete world. -/
theorem C1_witness :
    wOK.tmpCreateOk = true ∧ wOK.tmpWriteOk = true ∧ wOK.tmpSyncOk = true ∧
    wOK.tmpPermOk = true ∧ wOK.tmpRemoveOk = true ∧
    ((run_from_temp_file wOK s0).2).tmpFile = false :=
  ⟨rfl, rfl, rfl, rfl, rfl, C1_theorem wOK s0 rfl rfl rfl rfl rfl⟩

/-- C2: whenever the anonymous (memfd) strategy fails — for any reason
at all — `run_from_memory_or_temp` continues with the temp-file
strategy, and returns exactly what `run_from_temp_file` produces
(result and final state), unchanged. -/
theorem C2_theorem (w : World) (s : St) (e : LaunchErr)
    (h : (run_from_memory_linux w s).1 = Except.error e) :
    run_from_memory_or_temp w s = run_from_temp_file w (run_from_memory_linux w s).2 := by
  unfold run_from_memory_or_temp
  rcases hm : run_from_memory_linux w s with ⟨r, s1⟩
  cases r with
  | ok v =>
    rw [hm] at h
    simp at h
  | error e2 => rfl

/-- Witness for C2: `memfd_create` fails, the temp-file path runs. -/
theorem C2_witness :
    (run_from_memory_linux wNoMemfd s0).1 = Except.error LaunchErr.memfdCreateFailed ∧
    run_from_memory_or_temp wNoMemfd s0
      = run_from_temp_file wNoMemfd (run_from_memory_linux wNoMemfd s0).2 :=
  ⟨rfl, C2_theorem wNoMemfd s0 LaunchErr.memfdCreateFailed rfl⟩

lemma execCount_append (a b : List Ev) : execCount (a ++ b) = execCount a + execCount b := by
  simp [execCount, List.filter_append]

/-- C4 counterexample: with a payload that runs and exits 2 (writing
`"x"` to stderr) on the memfd path, `run_from_memory_or_temp` DOES fall
back to the temp-file strategy and the payload is executed twice within
the single launch call — contradicting the claim that a non-zero
payload exit does not trigger the fallback. -/
theorem C4_counterexample :
    execCount ((run_from_memory_or_temp wExit2 s0).2.events) = 2 ∧
    (run_from_memory_or_temp wExit2 s0).1
      = Except.error (LaunchErr.childFailed "x") := by
  constructor
  · rfl
  · decide

/-- C4 (amended): a non-zero payload exit is fatal (an error carrying
the lossily decoded stderr) only on the final, temp-file path; on the
anonymous (memfd) path it is treated like every other failure of that
path and triggers the temp-file fallback, so within one
`run_from_memory_or_temp` call the payload is executed twice. -/
theorem C4_theorem (w : World) (s : St) (o oT : ProcOutput)
    (h1 : w.memfdOk = true) (h2 : w.memfdWriteOk = true)
    (h3 : w.memfdSpawn = some o) (h4 : o.exitCode ≠ 0)
    (h5 : w.tmpCreateOk = true) (h6 : w.tmpWriteOk = true) (h7 : w.tmpSyncOk = true)
    (h8 : w.tmpPermOk = true) (h9 : w.tmpSpawn = some oT) (h10 : oT.exitCode ≠ 0) :
    (run_from_memory_or_temp w s).1
      = Except.error (LaunchErr.childFailed (String.mk (utf8Lossy oT.stderr))) ∧
    execCount ((run_from_memory_or_temp w s).2.events) = execCount s.events + 2 := by
  have hmain : run_from_memory_or_temp w s
      = (Except.error (LaunchErr.childFailed (String.mk (utf8Lossy oT.stderr))),
         { tmpFile := if w.tmpRemoveOk then false else true,
           events := (s.events ++ [Ev.exec (some o)]) ++ [Ev.exec (some oT)] }) := by
    unfold run_from_memory_or_temp run_from_memory_linux run_from_temp_file
      create_temp_executable
    simp only [h1, h2, h3, h5, h6, h7, h8, h9, Bool.not_true, Bool.false_eq_true,
      if_false, if_neg h4, if_neg h10]
    cases hR : w.tmpRemoveOk <;> simp [hR]
  rw [hmain]
  refine ⟨rfl, ?_⟩
  simp [execCount_append]
  rfl

/-- Witness for C4 (amended) at the concrete world `wExit2`. -/
theorem C4_witness :
    wExit2.memfdSpawn = some ⟨2, [], [120]⟩ ∧ (2 : Nat) ≠ 0 ∧
    ((run_from_memory_or_temp wExit2 s0).1
        = Except.error (LaunchErr.childFailed (String.mk (utf8Lossy [120]))) ∧
      execCount ((run_from_memory_or_temp wExit2 s0).2.events) = execCount s0.events + 2) :=
  ⟨rfl, by decide,
    C4_theorem wExit2 s0 ⟨2, [], [120]⟩ ⟨2, [], [120]⟩ rfl rfl rfl (by decide)
      rfl rfl rfl rfl rfl (by decide)⟩

/-- C5: in Captured mode on a completed spawn, the launch returns the
strictly decoded stdout on exit 0 (an `OutputDecodeFailed`-style error
when stdout is not valid UTF-8), and on a non-zero exit a fatal error
whose diagnostic message ends with (hence contains) the lossily decoded
stderr.  Stated for both the temp-file path and the memfd path. -/
theorem C5_theorem (w : World) (s : St) (out : ProcOutput)
    (hc : w.tmpCreateOk = true) (hw : w.tmpWriteOk = true) (hs : w.tmpSyncOk = true)
    (hp : w.tmpPermOk = true) (ht : w.tmpSpawn = some out)
    (hm1 : w.memfdOk = true) (hm2 : w.memfdWriteOk = true) (hm3 : w.memfdSpawn = some out) :
    (out.exitCode = 0 → (run_from_temp_file w s).1
        = (match utf8Decode out.stdout with
           | some cs => Except.ok (String.mk cs)
           | none => Except.error LaunchErr.decodeFailed)) ∧
    (out.exitCode ≠ 0 → (run_from_temp_file w s).1
        = Except.error (LaunchErr.childFailed (String.mk (utf8Lossy out.stderr)))) ∧
    (out.exitCode = 0 → (run_from_memory_linux w s).1
        = (match utf8Decode out.stdout with
           | some cs => Except.ok (String.mk cs)
           | none => Except.error LaunchErr.decodeFailed)) ∧
    (out.exitCode ≠ 0 → (run_from_memory_linux w s).1
        = Except.error (LaunchErr.childFailed (String.mk (utf8Lossy out.stderr)))) ∧
    List.IsSuffix (utf8Lossy out.stderr)
      ((LaunchErr.childFailed (String.mk (utf8Lossy out.stderr))).message.data) := by
  refine ⟨?_, ?_, ?_, ?_, ?_⟩
  · intro he
    unfold run_from_temp_file create_temp_executable
    simp only [hc, hw, hs, hp, ht, Bool.not_true, Bool.false_eq_true, if_false, if_pos he]
    rcases hd : utf8Decode out.stdout with _ | cs <;> simp [hd]
  · intro he
    unfold run_from_temp_file create_temp_executable
    simp only [hc, hw, hs, hp, ht, Bool.not_true, Bool.false_eq_true, if_false, if_neg he]
  · intro he
    unfold run_from_memory_linux
    simp only [hm1, hm2, hm3, Bool.not_true, Bool.false_eq_true, if_false, if_pos he]
    rcases hd : utf8Decode out.stdout with _ | cs <;> simp [hd]
  · intro he
    unfold run_from_memory_linux
    simp only [hm1, hm2, hm3, Bool.not_true, Bool.false_eq_true, if_false, if_neg he]
  · refine ⟨"Go binary failed: ".data, ?_⟩
    simp [LaunchErr.message, String.data_append]

/-- Witness for C5: the payload writes `"OK"` to stdout and exits 0;
the captured launch returns the decoded text `"OK"`. -/
theorem C5_witness :
    wOK.tmpSpawn = some ⟨0, [0x4F, 0x4B], []⟩ ∧
    (run_from_temp_file wOK s0).1 = Except.ok "OK" := by
  refine ⟨rfl, ?_⟩
  have h := (C5_theorem wOK s0 ⟨0, [0x4F, 0x4B], []⟩
      rfl rfl rfl rfl rfl rfl rfl rfl).1 rfl
  rw [h]
  decide

lemma runBinary_events (w : World) (s : St) :
    (run_binary_with_terminal_control w s).2.events
      = s.events
        ++ (run_binary_with_terminal_control w { tmpFile := s.tmpFile, events := [] }).2.events := by
  unfold run_binary_with_terminal_control create_temp_executable
  cases hc : w.tmpCreateOk <;> cases hw : w.tmpWriteOk <;> cases hs : w.tmpSyncOk <;>
    cases hp : w.tmpPermOk <;> rcases ht : w.tmpSpawn with _ | out <;>
      cases hR : w.tmpRemoveOk <;>
        simp [hc, hw, hs, hp, ht, hR] <;>
          by_cases he : out.exitCode = 0 <;> simp [he]

lemma runBinary_pure_exec (w : World) (b : Bool) :
    ((run_binary_with_terminal_control w { tmpFile := b, events := [] }).2.events.all
      (fun e => match e with | Ev.exec _ => true | _ => false)) = true := by
  unfold run_binary_with_terminal_control create_temp_executable
  cases hc : w.tmpCreateOk <;> cases hw : w.tmpWriteOk <;> cases hs : w.tmpSyncOk <;>
    cases hp : w.tmpPermOk <;> rcases ht : w.tmpSpawn with _ | out <;>
      cases hR : w.tmpRemoveOk <;>
        simp [hc, hw, hs, hp, ht, hR] <;>
          by_cases he : out.exitCode = 0 <;> simp [he]

/-- C9: around a Handoff launch in which raw mode is successfully
disabled and the screen cleared, the event trace is exactly: the prior
events, then the raw-mode disable, then the events of the child-run
step (which are payload spawn attempts only), then the raw-mode
re-enable — so disable strictly precedes the child run, which strictly
precedes the re-enable, and the re-enable is attempted no matter
whether the child-run step succeeded or returned an error. -/
theorem C9_theorem (tw : TermWorld) (w : World) (s : St)
    (hd : tw.disableOk = true) (hc : tw.clearOk = true) :
    ((execute_go_binary_fullscreen tw w s).2).events
        = s.events ++ [Ev.disableRaw]
          ++ ((run_binary_with_terminal_control w
                { tmpFile := s.tmpFile, events := [] }).2).events
          ++ [Ev.enableRaw] ∧
    (((run_binary_with_terminal_control w
        { tmpFile := s.tmpFile, events := [] }).2).events.all
      (fun e => match e with | Ev.exec _ => true | _ => false)) = true ∧
    Ev.enableRaw ∈ ((execute_go_binary_fullscreen tw w s).2).events := by
  have hmain : ((execute_go_binary_fullscreen tw w s).2).events
      = s.events ++ [Ev.disableRaw]
        ++ ((run_binary_with_terminal_control w
              { tmpFile := s.tmpFile, events := [] }).2).events
        ++ [Ev.enableRaw] := by
    unfold execute_go_binary_fullscreen
    rcases hr : run_binary_with_terminal_control w
        { s with events := s.events ++ [Ev.disableRaw] } with ⟨r, s2⟩
    have hev : s2.events
        = (s.events ++ [Ev.disableRaw])
          ++ (run_binary_with_terminal_control w
                { tmpFile := s.tmpFile, events := [] }).2.events := by
      have := runBinary_events w { s with events := s.events ++ [Ev.disableRaw] }
      rw [hr] at this
      exact this
    cases r <;> cases he : tw.enableOk <;>
      simp [hd, hc, he, hr, hev, List.append_assoc]
  refine ⟨hmain, runBinary_pure_exec w s.tmpFile, ?_⟩
  rw [hmain]
  simp

/-- Witness for C9 at a concrete terminal world and launch world. -/
theorem C9_witness :
    twOK.disableOk = true ∧ twOK.clearOk = true ∧
    (((execute_go_binary_fullscreen twOK wOK s0).2).events
        = s0.events ++ [Ev.disableRaw]
          ++ ((run_binary_with_terminal_control wOK
                { tmpFile := s0.tmpFile, events := [] }).2).events
          ++ [Ev.enableRaw] ∧
      (((run_binary_with_terminal_control wOK
          { tmpFile := s0.tmpFile, events := [] }).2).events.all
        (fun e => match e with | Ev.exec _ => true | _ => false)) = true ∧
      Ev.enableRaw ∈ ((execute_go_binary_fullscreen twOK wOK s0).2).events) :=
  ⟨rfl, rfl, C9_theorem twOK wOK s0 rfl rfl⟩

lemma map_fst_modify (l : List (Nat × Panel)) (k : Nat) (f : Panel → Panel) :
    (l.map (fun e => if e.1 = k then (e.1, f e.2) else e)).map (fun e => e.1)
      = l.map (fun e => e.1) := by
  induction l with
  | nil => rfl
  | cons a t ih =>
    simp only [List.map_cons, ih, List.cons.injEq, and_true]
    split <;> rfl

lemma keysList_modifyPanel (m : Multiplexer) (k : Nat) (f : Panel → Panel) :
    keysList (modifyPanel m k f) = keysList m :=
  map_fst_modify m.panels k f

lemma keysList_setActive (m : Multiplexer) (v : Nat) :
    keysList { m with active_panel := v } = keysList m := rfl

lemma active_modifyPanel (m : Multiplexer) (k : Nat) (f : Panel → Panel) :
    (modifyPanel m k f).active_panel = m.active_panel := rfl

lemma next_modifyPanel (m : Multiplexer) (k : Nat) (f : Panel → Panel) :
    (modifyPanel m k f).next_panel_id = m.next_panel_id := rfl

lemma findIdx?_shift (p : Nat → Bool) (l : List Nat) (i : Nat) :
    List.findIdx? p l i = (List.findIdx? p l 0).map (fun j => j + i) := by
  induction l generalizing i with
  | nil => rfl
  | cons x xs ih =>
    rw [List.findIdx?_cons, List.findIdx?_cons]
    by_cases hp : p x
    · simp [hp]
    · simp only [hp, Bool.false_eq_true, if_false]
      rw [ih (i + 1), ih 1, Option.map_map]
      rcases List.findIdx? p xs 0 with _ | j
      · rfl
      · simp only [Option.map_some', Function.comp_apply]
        congr 1
        omega

lemma getD_of_findIdx? (l : List Nat) (a : Nat) :
    ∀ (idx d : Nat), l.findIdx? (fun x => x = a) = some idx →
      idx < l.length ∧ l.getD idx d = a := by
  induction l with
  | nil => intro idx d h; exact Option.noConfusion h
  | cons x xs ih =>
    intro idx d h
    rw [List.findIdx?_cons] at h
    by_cases hp : x = a
    · rw [if_pos (by simp [hp])] at h
      injection h with h
      subst h
      exact ⟨Nat.succ_pos _, hp⟩
    · rw [if_neg (by simp [hp])] at h
      rw [findIdx?_shift _ _ 1] at h
      rcases hbase : List.findIdx? (fun x => decide (x = a)) xs 0 with _ | j
      · rw [hbase] at h
        exact Option.noConfusion h
      · rw [hbase] at h
        simp only [Option.map_some', Option.some.injEq] at h
        obtain ⟨hlt, hget⟩ := ih j d hbase
        subst h
        refine ⟨by simpa using Nat.succ_lt_succ hlt, ?_⟩
        simpa [List.getD_cons_succ] using hget

lemma findIdx?_getD_self :
    ∀ (l : List Nat) (j d : Nat), l.Nodup → j < l.length →
      l.findIdx? (fun x => x = l.getD j d) = some j := by
  intro l
  induction l with
  | nil => intro j d _ hj; simp at hj
  | cons x xs ih =>
    intro j d hnd hj
    rw [List.findIdx?_cons]
    cases j with
    | zero => simp
    | succ j =>
      have hx : x ∉ xs := (List.nodup_cons.mp hnd).1
      have hj' : j < xs.length := by simpa using hj
      have hgd : (x :: xs).getD (j + 1) d = xs.getD j d := by
        simp [List.getD_cons_succ]
      rw [hgd]
      have hne : ¬(x = xs.getD j d) := by
        intro hcontra
        apply hx
        rw [hcontra, List.getD_eq_get xs d hj']
        exact List.get_mem xs j hj'
      rw [if_neg (by simp only [decide_eq_true_eq]; exact hne)]
      rw [findIdx?_shift _ _ 1, ih j d (List.nodup_cons.mp hnd).2 hj']
      rfl

lemma getD_default_irrel (l : List Nat) (i : Nat) (d1 d2 : Nat) (h : i < l.length) :
    l.getD i d1 = l.getD i d2 := by
  rw [List.getD_eq_get l d1 h, List.getD_eq_get l d2 h]

lemma activeEntries_eq :
    ∀ (l : List (Nat × Panel)) (act : Nat),
      (l.map (fun e => e.1)).Nodup → act ∈ l.map (fun e => e.1) →
      (∀ e ∈ l, (e.2.is_active = true ↔ e.1 = act)) →
      (l.filter (fun e => e.2.is_active)).map (fun e => e.1) = [act] := by
  intro l
  induction l with
  | nil => intro act _ hmem _; simp at hmem
  | cons a t ih =>
    intro act hnd hmem hiff
    rw [List.map_cons, List.nodup_cons] at hnd
    rw [List.map_cons] at hmem
    rw [List.filter_cons]
    by_cases ha : a.1 = act
    · have hact : a.2.is_active = true := (hiff a (by simp)).mpr ha
      rw [if_pos (by simp [hact])]
      have hrest : t.filter (fun e => e.2.is_active) = [] := by
        rw [List.filter_eq_nil_iff]
        intro e he
        have hne : e.1 ≠ act := by
          intro hcontra
          exact hnd.1 (by rw [ha, ← hcontra]; exact List.mem_map_of_mem _ he)
        have hiffe := hiff e (by simp [he])
        simp only [hiffe]
        simpa using hne
      rw [hrest]
      simp [ha]
    · have hact : a.2.is_active = false := by
        rcases hb : a.2.is_active with _ | _
        · rfl
        · exact absurd ((hiff a (by simp)).mp hb) ha
      rw [if_neg (by simp [hact])]
      refine ih act hnd.2 ?_ ?_
      · rcases List.mem_cons.mp hmem with hc | hc
        · exact absurd hc.symm ha
        · exact hc
      · intro e he
        exact hiff e (by simp [he])

lemma refocus_eq (σ : List Nat → List Nat) (m : Multiplexer) (idx : Nat)
    (h : (σ (keysList m)).findIdx? (fun id => id = m.active_panel) = some idx) :
    switch_refocus σ (switch_deactivated m)
      = { switch_deactivated m with
          active_panel :=
            (σ (keysList m)).getD ((idx + 1) % (σ (keysList m)).length) m.active_panel } := by
  unfold switch_refocus switch_deactivated
  rw [keysList_modifyPanel, active_modifyPanel, h]

lemma switch_eq (σ : List Nat → List Nat) (m : Multiplexer) (idx : Nat)
    (h : (σ (keysList m)).findIdx? (fun id => id = m.active_panel) = some idx) :
    switch_to_next_panel σ m
      = modifyPanel
          { modifyPanel m m.active_panel (fun p => { p with is_active := false }) with
            active_panel :=
              (σ (keysList m)).getD ((idx + 1) % (σ (keysList m)).length) m.active_panel }
          ((σ (keysList m)).getD ((idx + 1) % (σ (keysList m)).length) m.active_panel)
          (fun p => { p with is_active := true }) := by
  unfold switch_to_next_panel
  rw [refocus_eq σ m idx h]
  rfl

lemma switch_active (σ : List Nat → List Nat) (m : Multiplexer) (idx : Nat)
    (h : (σ (keysList m)).findIdx? (fun id => id = m.active_panel) = some idx) :
    (switch_to_next_panel σ m).active_panel
      = (σ (keysList m)).getD ((idx + 1) % (σ (keysList m)).length) m.active_panel := by
  rw [switch_eq σ m idx h]
  rfl

lemma keysList_refocus (σ : List Nat → List Nat) (m1 : Multiplexer) :
    keysList (switch_refocus σ m1) = keysList m1 := by
  unfold switch_refocus
  split <;> rfl

lemma next_refocus (σ : List Nat → List Nat) (m1 : Multiplexer) :
    (switch_refocus σ m1).next_panel_id = m1.next_panel_id := by
  unfold switch_refocus
  split <;> rfl

lemma keysList_switch (σ : List Nat → List Nat) (m : Multiplexer) :
    keysList (switch_to_next_panel σ m) = keysList m := by
  unfold switch_to_next_panel switch_deactivated
  rw [keysList_modifyPanel, keysList_refocus, keysList_modifyPanel]

lemma next_switch (σ : List Nat → List Nat) (m : Multiplexer) :
    (switch_to_next_panel σ m).next_panel_id = m.next_panel_id := by
  unfold switch_to_next_panel switch_deactivated
  rw [next_modifyPanel, next_refocus, next_modifyPanel]

lemma muxInv_modify_flagPreserving (m : Multiplexer) (k : Nat) (f : Panel → Panel)
    (hf : ∀ p, (f p).is_active = p.is_active) (h : MuxInv m) :
    MuxInv (modifyPanel m k f) := by
  obtain ⟨h1, h2, h3, h4, h5⟩ := h
  refine ⟨?_, ?_, ?_, ?_, ?_⟩
  · intro hx
    apply h1
    have : m.panels.map (fun e => if e.1 = k then (e.1, f e.2) else e) = [] := hx
    exact List.map_eq_nil.mp this
  · rw [keysList_modifyPanel]; exact h2
  · rw [keysList_modifyPanel, next_modifyPanel]; exact h3
  · rw [keysList_modifyPanel, active_modifyPanel]; exact h4
  · intro e he
    rw [active_modifyPanel]
    simp only [modifyPanel, List.mem_map] at he
    obtain ⟨d, hd, hde⟩ := he
    by_cases hk : d.1 = k
    · rw [if_pos hk] at hde
      rw [← hde]
      simpa [hf] using h5 d hd
    · rw [if_neg hk] at hde
      rw [← hde]
      exact h5 d hd

lemma muxInv_switch (σ : List Nat → List Nat) (m : Multiplexer)
    (hσ : GoodEnum σ) (h : MuxInv m) : MuxInv (switch_to_next_panel σ m) := by
  obtain ⟨h1, h2, h3, h4, h5⟩ := h
  have hmemσ : m.active_panel ∈ σ (keysList m) := ((hσ _).mem_iff).mpr h4
  have hfindne : (σ (keysList m)).findIdx? (fun id => id = m.active_panel) ≠ none := by
    intro hcontra
    rw [List.findIdx?_eq_none_iff] at hcontra
    have := hcontra _ hmemσ
    simp at this
  obtain ⟨idx, hidx⟩ := Option.ne_none_iff_exists'.mp hfindne
  have hlen : 0 < (σ (keysList m)).length := List.length_pos.mpr (by
    intro hnil
    rw [hnil] at hmemσ
    exact List.not_mem_nil _ hmemσ)
  have hmod : (idx + 1) % (σ (keysList m)).length < (σ (keysList m)).length :=
    Nat.mod_lt _ hlen
  set nxt := (σ (keysList m)).getD ((idx + 1) % (σ (keysList m)).length) m.active_panel
    with hnxt_def
  have hnxtσ : nxt ∈ σ (keysList m) := by
    rw [hnxt_def, List.getD_eq_get _ _ hmod]
    exact List.get_mem _ _ hmod
  have hnxt_keys : nxt ∈ keysList m := ((hσ _).mem_iff).mp hnxtσ
  rw [switch_eq σ m idx hidx]
  refine ⟨?_, ?_, ?_, ?_, ?_⟩
  · intro hx
    apply h1
    have hx2 := List.map_eq_nil.mp hx
    exact List.map_eq_nil.mp hx2
  · rw [keysList_modifyPanel, keysList_setActive, keysList_modifyPanel]; exact h2
  · rw [keysList_modifyPanel, keysList_setActive, keysList_modifyPanel]; exact h3
  · rw [keysList_modifyPanel, keysList_setActive, keysList_modifyPanel]; exact hnxt_keys
  · intro e he
    show e.2.is_active = true ↔ e.1 = nxt
    simp only [modifyPanel, List.mem_map] at he
    obtain ⟨d2, hd2, hde2⟩ := he
    obtain ⟨d, hd, hde⟩ := hd2
    by_cases hk2 : d2.1 = nxt
    · rw [if_pos hk2] at hde2
      rw [← hde2]
      simpa using hk2
    · rw [if_neg hk2] at hde2
      rw [← hde2]
      show d2.2.is_active = true ↔ d2.1 = nxt
      by_cases hk : d.1 = m.active_panel
      · rw [if_pos hk] at hde
        rw [← hde]
        rw [← hde] at hk2
        simpa using fun hcontra => hk2 hcontra
      · rw [if_neg hk] at hde
        rw [← hde]
        rw [← hde] at hk2
        have hfalse : d.2.is_active = false := by
          rcases hb : d.2.is_active with _ | _
          · rfl
          · exact absurd ((h5 d hd).mp hb) hk
        rw [hfalse]
        simp only [Bool.false_eq_true, false_iff]
        exact hk2

lemma seeded_manual_is_active (id : Nat) (t : String) :
    (((Panel.new id t).add_line
        "Manual panel created. Type commands or notes here.").add_line
        "Use Ctrl+C to switch panels, Ctrl+N for new panel, Ctrl+Q to quit.").is_active
      = false := by
  rw [addLine_is_active, addLine_is_active]
  rfl

lemma create_manual_panels (m : Multiplexer) (t : String)
    (hfresh : ∀ k ∈ keysList m, k < m.next_panel_id) :
    (create_manual_panel m t).panels
      = m.panels ++ [(m.next_panel_id,
          ((Panel.new m.next_panel_id t).add_line
            "Manual panel created. Type commands or notes here.").add_line
            "Use Ctrl+C to switch panels, Ctrl+N for new panel, Ctrl+Q to quit.")] := by
  unfold create_manual_panel assocInsert
  rw [if_neg]
  simp only [List.any_eq_true, not_exists, not_and]
  intro e he
  simp only [decide_eq_true_eq]
  intro hc
  have := hfresh e.1 (List.mem_map_of_mem _ he)
  omega

lemma muxInv_create_manual (m : Multiplexer) (t : String) (h : MuxInv m) :
    MuxInv (create_manual_panel m t) := by
  obtain ⟨h1, h2, h3, h4, h5⟩ := h
  have hpanels := create_manual_panels m t h3
  have hkeys : keysList (create_manual_panel m t) = keysList m ++ [m.next_panel_id] := by
    unfold keysList
    rw [hpanels, List.map_append]
    rfl
  have hactive : (create_manual_panel m t).active_panel = m.active_panel := rfl
  have hnext : (create_manual_panel m t).next_panel_id = m.next_panel_id + 1 := rfl
  have hnotin : m.next_panel_id ∉ keysList m := fun hin => lt_irrefl _ (h3 _ hin)
  refine ⟨?_, ?_, ?_, ?_, ?_⟩
  · rw [hpanels]
    simp
  · rw [hkeys, List.nodup_append]
    refine ⟨h2, List.nodup_singleton _, ?_⟩
    intro a ha hb
    rw [List.mem_singleton] at hb
    exact hnotin (hb ▸ ha)
  · rw [hkeys, hnext]
    intro k hk
    rcases List.mem_append.mp hk with hk | hk
    · exact Nat.lt_succ_of_lt (h3 k hk)
    · rw [List.mem_singleton] at hk
      omega
  · rw [hkeys, hactive]
    exact List.mem_append_left _ h4
  · intro e he
    rw [hactive]
    rw [hpanels] at he
    rcases List.mem_append.mp he with he | he
    · exact h5 e he
    · rw [List.mem_singleton] at he
      subst he
      rw [seeded_manual_is_active]
      have hne : m.next_panel_id ≠ m.active_panel := by
        intro hc
        exact hnotin (hc ▸ h4)
      simp only [Bool.false_eq_true, false_iff]
      exact hne

lemma muxInv_new (size : Nat × Nat) : MuxInv (Multiplexer.new size) := by
  have hkeys : keysList (Multiplexer.new size) = [0] := rfl
  refine ⟨?_, ?_, ?_, ?_, ?_⟩
  · simp [Multiplexer.new, create_binary_panel, assocInsert]
  · rw [hkeys]
    exact List.nodup_singleton 0
  · intro k hk
    rw [hkeys] at hk
    rw [List.mem_singleton] at hk
    subst hk
    exact Nat.zero_lt_one
  · rw [hkeys]
    exact List.mem_singleton.mpr rfl
  · intro e he
    simp only [Multiplexer.new, create_binary_panel, assocInsert, List.any_nil,
      Bool.false_eq_true, if_false, List.nil_append, List.mem_singleton] at he
    subst he
    exact ⟨fun _ => rfl, fun _ => rfl⟩

lemma muxInv_handle (σ : List Nat → List Nat) (launch : Except LaunchErr Unit)
    (m : Multiplexer) (k : KeyEvent) (hσ : GoodEnum σ) (h : MuxInv m) :
    MuxInv (handle_input σ launch m k) := by
  unfold handle_input
  split_ifs with hq hc hn he
  · exact h
  · exact muxInv_switch σ m hσ h
  · exact muxInv_create_manual m _ h
  · rcases hgp : getPanel m m.active_panel with _ | p
    · simp only [hgp]
      exact h
    · simp only [hgp]
      rcases hpt : p.panel_type with _ | _
      · simp only [hpt]
        exact muxInv_modify_flagPreserving m _ _ (fun q => addLine_is_active q _) h
      · simp only [hpt]
        cases launch with
        | ok v =>
          exact muxInv_modify_flagPreserving m _ _ (fun q => addLine_is_active q _) h
        | error e =>
          exact muxInv_modify_flagPreserving m _ _ (fun q => addLine_is_active q _) h
  · rcases hkc : k.code with c | _ | _
    · simp only [hkc]
      rcases hgp : getPanel m m.active_panel with _ | p
      · simp only [hgp]
        exact h
      · simp only [hgp]
        by_cases hman : p.panel_type = PanelType.Manual
        · rw [if_pos hman]
          exact muxInv_modify_flagPreserving m _ _ (fun q => addLine_is_active q _) h
        · rw [if_neg hman]
          exact h
    · simp only [hkc]
      exact h
    · simp only [hkc]
      exact h

lemma muxInv_reachable (m : Multiplexer) (h : Reachable m) : MuxInv m := by
  induction h with
  | init size => exact muxInv_new size
  | key σ launch k hm hσ ih => exact muxInv_handle σ launch _ k hσ ih
  | resize w ht hm ih => exact ih

lemma goodEnum_id : GoodEnum (fun l => l) := fun l => List.Perm.refl l

lemma switch_orbit (σ : List Nat → List Nat) (m : Multiplexer) (hσ : GoodEnum σ)
    (h : MuxInv m) (idx : Nat)
    (hidx : (σ (keysList m)).findIdx? (fun id => id = m.active_panel) = some idx) :
    ∀ k : Nat,
      ((switch_to_next_panel σ)^[k] m).active_panel
        = (σ (keysList m)).getD ((idx + k) % (σ (keysList m)).length) m.active_panel
      ∧ MuxInv ((switch_to_next_panel σ)^[k] m)
      ∧ keysList ((switch_to_next_panel σ)^[k] m) = keysList m := by
  have hbase := getD_of_findIdx? _ _ idx m.active_panel hidx
  have hlt : idx < (σ (keysList m)).length := hbase.1
  have hget : (σ (keysList m)).getD idx m.active_panel = m.active_panel := hbase.2
  have hlen : 0 < (σ (keysList m)).length := Nat.lt_of_le_of_lt (Nat.zero_le idx) hlt
  have hnd : (σ (keysList m)).Nodup := (hσ (keysList m)).symm.nodup h.2.1
  intro k
  induction k with
  | zero =>
    refine ⟨?_, h, rfl⟩
    rw [Function.iterate_zero_apply, Nat.add_zero, Nat.mod_eq_of_lt hlt, hget]
  | succ k ih =>
    obtain ⟨hak, hinvk, hkeysk⟩ := ih
    rw [Function.iterate_succ_apply']
    have hidxk : (σ (keysList ((switch_to_next_panel σ)^[k] m))).findIdx?
        (fun id => id = ((switch_to_next_panel σ)^[k] m).active_panel)
        = some ((idx + k) % (σ (keysList m)).length) := by
      rw [hkeysk, hak]
      exact findIdx?_getD_self _ _ _ hnd (Nat.mod_lt _ hlen)
    have hact := switch_active σ ((switch_to_next_panel σ)^[k] m)
      ((idx + k) % (σ (keysList m)).length) hidxk
    have hmodlt : ((idx + k) % (σ (keysList m)).length + 1) % (σ (keysList m)).length
        < (σ (keysList m)).length := Nat.mod_lt _ hlen
    refine ⟨?_, muxInv_switch σ _ hσ hinvk, by rw [keysList_switch, hkeysk]⟩
    rw [hact, hkeysk,
      getD_default_irrel _ _ ((switch_to_next_panel σ)^[k] m).active_panel
        m.active_panel hmodlt,
      Nat.mod_add_mod, Nat.add_assoc]

/-- C7: in every multiplexer state reachable from construction through
key events (with any legal HashMap key enumeration and any launch
outcome) and resize events, whenever the panel set is non-empty,
exactly one panel has `is_active = true` — namely the one keyed by
`active_panel` — and `active_panel` is a key of the panel map. -/
theorem C7_theorem (m : Multiplexer) (h : Reachable m) (_hne : m.panels ≠ []) :
    ((m.panels.filter (fun e => e.2.is_active)).map (fun e => e.1) = [m.active_panel]) ∧
    m.active_panel ∈ keysList m := by
  obtain ⟨h1, h2, h3, h4, h5⟩ := muxInv_reachable m h
  exact ⟨activeEntries_eq m.panels m.active_panel h2 h4 h5, h4⟩

/-- Witness for C7 at the freshly constructed multiplexer. -/
theorem C7_witness :
    (Multiplexer.new (80, 24)).panels ≠ [] ∧
    (((Multiplexer.new (80, 24)).panels.filter (fun e => e.2.is_active)).map (fun e => e.1)
        = [(Multiplexer.new (80, 24)).active_panel] ∧
      (Multiplexer.new (80, 24)).active_panel ∈ keysList (Multiplexer.new (80, 24))) := by
  have hne : (Multiplexer.new (80, 24)).panels ≠ [] := by decide
  exact ⟨hne, C7_theorem (Multiplexer.new (80, 24)) (Reachable.init (80, 24)) hne⟩

/-- C8: from any state satisfying the multiplexer invariant (any
starting active panel), applying `switch_to_next_panel` exactly N times
(N = number of panels, with the per-state key enumeration fixed — the
key set never changes during switching) returns focus to the original
active panel; and after each number of switches the `is_active` flags
are mutually exclusive: exactly the panel keyed by the current
`active_panel` is flagged. -/
theorem C8_theorem (σ : List Nat → List Nat) (m : Multiplexer) (k : Nat)
    (hσ : GoodEnum σ) (h : MuxInv m) :
    ((switch_to_next_panel σ)^[m.panels.length] m).active_panel = m.active_panel ∧
    ((((switch_to_next_panel σ)^[k] m).panels.filter (fun e => e.2.is_active)).map
        (fun e => e.1))
      = [((switch_to_next_panel σ)^[k] m).active_panel] := by
  have h4 := h.2.2.2.1
  have hmemσ : m.active_panel ∈ σ (keysList m) := ((hσ _).mem_iff).mpr h4
  have hfindne : (σ (keysList m)).findIdx? (fun id => id = m.active_panel) ≠ none := by
    intro hcontra
    rw [List.findIdx?_eq_none_iff] at hcontra
    have := hcontra _ hmemσ
    simp at this
  obtain ⟨idx, hidx⟩ := Option.ne_none_iff_exists'.mp hfindne
  have horb := switch_orbit σ m hσ h idx hidx
  constructor
  · have h1 := (horb m.panels.length).1
    have hlen_eq : (σ (keysList m)).length = m.panels.length := by
      rw [(hσ _).length_eq]
      simp [keysList]
    rw [h1, ← hlen_eq, Nat.add_mod_right,
      Nat.mod_eq_of_lt (getD_of_findIdx? _ _ idx m.active_panel hidx).1,
      (getD_of_findIdx? _ _ idx m.active_panel hidx).2]
  · obtain ⟨hak, hinvk, hkeysk⟩ := horb k
    obtain ⟨g1, g2, g3, g4, g5⟩ := hinvk
    exact activeEntries_eq _ _ g2 g4 g5

/-- Witness for C8 at the freshly constructed multiplexer (N = 1) with
the identity key enumeration, checking the flags after one switch. -/
theorem C8_witness :
    ((switch_to_next_panel (fun l => l))^[(Multiplexer.new (80, 24)).panels.length]
        (Multiplexer.new (80, 24))).active_panel = (Multiplexer.new (80, 24)).active_panel ∧
    ((((switch_to_next_panel (fun l => l))^[1] (Multiplexer.new (80, 24))).panels.filter
        (fun e => e.2.is_active)).map (fun e => e.1))
      = [((switch_to_next_panel (fun l => l))^[1] (Multiplexer.new (80, 24))).active_panel] :=
  C8_theorem (fun l => l) (Multiplexer.new (80, 24)) 1 goodEnum_id (muxInv_new (80, 24))

/-- C3 counterexample: `panels` is a `HashMap`, whose `keys()` order is
unspecified; `sigma0` is a legal enumeration (a permutation of the key
set) under which, in the state reached by construction plus two Ctrl+N
presses (ids 0, 1, 2 inserted in that order, focus on 0), one switch
moves focus to panel 2 — not to panel 1, the successor in insertion
order.  So switching cycles in the map's iteration order, which need
not be insertion order. -/
theorem C3_counterexample :
    (sigma0 [0, 1, 2]).Perm [0, 1, 2] ∧
    keysList mux3 = [0, 1, 2] ∧
    mux3.active_panel = 0 ∧
    (switch_to_next_panel sigma0 mux3).active_panel = 2 ∧
    (2 : Nat) ≠ 1 := by
  refine ⟨by decide, by decide, by decide, by decide, by decide⟩

/-- C3 (amended): panel switching cycles through the currently-existing
panel ids in the order of the map's key enumeration (an arbitrary
permutation of the ids — insertion order is not guaranteed, because
`panels` is a `HashMap`): the panel at position `idx` in the
enumeration hands focus to the panel at position `(idx + 1) mod n`
(wrapping past the last back to the first), the switched-from panel is
deactivated and the switched-to panel is the unique active one. -/
theorem C3_theorem (σ : List Nat → List Nat) (m : Multiplexer) (idx : Nat)
    (hσ : GoodEnum σ) (h : MuxInv m)
    (hidx : (σ (keysList m)).findIdx? (fun id => id = m.active_panel) = some idx) :
    (switch_to_next_panel σ m).active_panel
      = (σ (keysList m)).getD ((idx + 1) % (σ (keysList m)).length) m.active_panel ∧
    (((switch_to_next_panel σ m).panels.filter (fun e => e.2.is_active)).map (fun e => e.1))
      = [(switch_to_next_panel σ m).active_panel] := by
  refine ⟨switch_active σ m idx hidx, ?_⟩
  obtain ⟨g1, g2, g3, g4, g5⟩ := muxInv_switch σ m hσ h
  exact activeEntries_eq _ _ g2 g4 g5

/-- Witness for C3 (amended) with the identity enumeration on the
freshly constructed multiplexer. -/
theorem C3_witness :
    (keysList (Multiplexer.new (80, 24))).findIdx?
        (fun id => id = (Multiplexer.new (80, 24)).active_panel) = some 0 ∧
    ((switch_to_next_panel (fun l => l) (Multiplexer.new (80, 24))).active_panel
        = (keysList (Multiplexer.new (80, 24))).getD
            ((0 + 1) % (keysList (Multiplexer.new (80, 24))).length)
            (Multiplexer.new (80, 24)).active_panel ∧
      (((switch_to_next_panel (fun l => l) (Multiplexer.new (80, 24))).panels.filter
          (fun e => e.2.is_active)).map (fun e => e.1))
        = [(switch_to_next_panel (fun l => l) (Multiplexer.new (80, 24))).active_panel]) :=
  ⟨by decide,
    C3_theorem (fun l => l) (Multiplexer.new (80, 24)) 0 goodEnum_id
      (muxInv_new (80, 24)) (by decide)⟩

/-- C10: creating a Note (manual) panel leaves focus unchanged — the
`active_panel` field keeps its previous value, the newly inserted panel
is not active, and every previously existing panel (key below the fresh
id counter) maps to exactly the same `Panel` value as before. -/
theorem C10_theorem (m : Multiplexer) (t : String)
    (hfresh : ∀ k ∈ keysList m, k < m.next_panel_id) :
    (create_manual_panel m t).active_panel = m.active_panel ∧
    ((getPanel (create_manual_panel m t) m.next_panel_id).map (fun p => p.is_active))
      = some false ∧
    (∀ k2 ∈ keysList m, getPanel (create_manual_panel m t) k2 = getPanel m k2) := by
  have hpanels := create_manual_panels m t hfresh
  refine ⟨rfl, ?_, ?_⟩
  · unfold getPanel
    rw [hpanels, List.find?_append]
    have hnone : m.panels.find? (fun e => e.1 = m.next_panel_id) = none := by
      rw [List.find?_eq_none]
      intro e he
      simp only [decide_eq_true_eq]
      intro hc
      have := hfresh e.1 (List.mem_map_of_mem _ he)
      omega
    rw [hnone]
    simp only [Option.none_or]
    rw [List.find?_cons_of_pos _ (by simp)]
    simp only [Option.map_some']
    rw [seeded_manual_is_active]
  · intro k2 hk2
    unfold getPanel
    rw [hpanels, List.find?_append]
    rcases hf : m.panels.find? (fun e => e.1 = k2) with _ | e
    · rw [List.find?_eq_none] at hf
      unfold keysList at hk2
      obtain ⟨e, he, hke⟩ := List.mem_map.mp hk2
      have := hf e he
      simp only [decide_eq_true_eq] at this
      exact absurd hke this
    · simp [hf]

/-- Witness for C10 on the freshly constructed multiplexer, checking
the pre-existing panel 0 explicitly. -/
theorem C10_witness :
    (create_manual_panel (Multiplexer.new (80, 24)) "Panel 1").active_panel
        = (Multiplexer.new (80, 24)).active_panel ∧
    ((getPanel (create_manual_panel (Multiplexer.new (80, 24)) "Panel 1")
        (Multiplexer.new (80, 24)).next_panel_id).map (fun p => p.is_active)) = some false ∧
    getPanel (create_manual_panel (Multiplexer.new (80, 24)) "Panel 1") 0
      = getPanel (Multiplexer.new (80, 24)) 0 :=
  ⟨(C10_theorem (Multiplexer.new (80, 24)) "Panel 1" (by decide)).1,
    (C10_theorem (Multiplexer.new (80, 24)) "Panel 1" (by decide)).2.1,
    (C10_theorem (Multiplexer.new (80, 24)) "Panel 1" (by decide)).2.2 0 (by decide)⟩
